import Mathlib

/-!
Shallow embedding of the sample-split stem-processor core
(src/utils/validators.py, src/shared_state.py, src/content_base.py,
src/dispatch_download.py) together with proofs about the claims of the
specification.  External effects (the filesystem, the demucs subprocess,
the channel processors) are modelled as explicit environments; machine
floats of the Python source are modelled as rationals, and the Python
`int(...)` conversion as truncation toward zero, which coincides with the
exact float computations at every input considered here.
-/

namespace StemProc

/-! ## Filesystem and audio model (inputs of utils/validators.py) -/

/-- Decoded audio as pydub exposes it to `_rms_ok`: duration in seconds and
RMS loudness.  Rationals stand in for the Python floats. -/
structure Audio where
  duration_seconds : ℚ
  rms : ℚ
deriving DecidableEq

/-- A file on disk as the validator observes it: its byte size and the decode
outcome, where `none` models `AudioSegment.from_file` raising an exception
(corrupt file). -/
structure FileInfo where
  size : ℕ
  decode : Option Audio
deriving DecidableEq

/-- Filesystem environment: which paths exist as directories
(`os.path.exists` on an output directory) and which paths are files
(`os.path.exists` / `os.path.getsize` / decoding on a stem file path,
`none` meaning the file does not exist). -/
structure FS where
  dirExists : String → Bool
  file : String → Option FileInfo

/-- Path join as used by `os.path.join` on the POSIX paths of the source. -/
def joinPath (a b : String) : String := a ++ "/" ++ b

/-! ## utils/validators.py -/

/-- Constant MIN_BYTES of validators.py. -/
def MIN_BYTES : ℕ := 80000

/-- Constant MIN_DURATION_S of validators.py. -/
def MIN_DURATION_S : ℚ := 20

/-- Constant MIN_RMS of validators.py. -/
def MIN_RMS : ℚ := 5

/-- Constant EXPECTED of validators.py: the four expected stem filenames. -/
def EXPECTED : List String := ["vocals.mp3", "drums.mp3", "bass.mp3", "other.mp3"]

/-- Embedding of `_rms_ok(path)`: decode the file and compare duration and RMS
against the thresholds; any decode failure (including a missing file) is
caught by the `except` clause and yields False. -/
def rms_ok (fs : FS) (path : String) : Bool :=
  match fs.file path with
  | some fi =>
    match fi.decode with
    | some seg => decide (MIN_DURATION_S ≤ seg.duration_seconds) && decide (MIN_RMS ≤ seg.rms)
    | none => false
  | none => false

/-- Result of `validate_stems`: the `ok` flag and the problems mapping,
rendered as an association list in EXPECTED order (the iteration order of the
source loop; the four keys are distinct). -/
structure ValidationResult where
  ok : Bool
  problems : List (String × String)
deriving DecidableEq

/-- Loop body of `validate_stems` for one expected stem name: the reason
recorded for that stem, or `none` when the stem has no problem. -/
def stem_problem (fs : FS) (base name : String) : Option String :=
  let fp := joinPath base name
  match fs.file fp with
  | none => some "missing"
  | some fi =>
    if fi.size < MIN_BYTES then some "too_small"
    else if rms_ok fs fp then none
    else some "silent_or_short"

/-- Embedding of `validate_stems(base)`: collect a problem reason per expected
stem and report `ok` exactly when the problems mapping stayed empty. -/
def validate_stems (fs : FS) (base : String) : ValidationResult :=
  let problems := EXPECTED.filterMap fun name =>
    (stem_problem fs base name).map fun r => (name, r)
  { ok := problems.isEmpty, problems := problems }

/-! ## shared_state.py (the Progress Store) -/

/-- Open meta mapping of a progress record, restricted to the fields the core
reads; `none` models an absent key. -/
structure PMeta where
  completed : Option Int := none
  total : Option Int := none
  channel : Option String := none
deriving DecidableEq

/-- Progress record as stored (JSON round-tripped) in the Progress Store,
restricted to the fields the core reads; `none` models an absent key.  The
record with all fields absent models the empty dict. -/
structure PRec where
  message : Option String := none
  percent : Option ℚ := none
  meta : Option PMeta := none
deriving DecidableEq

/-- Truthiness of the modelled dict: a Python dict is truthy exactly when it
has at least one key. -/
def PRec.isTruthy (r : PRec) : Bool :=
  r.message.isSome || r.percent.isSome || r.meta.isSome

/-- The in-memory `_progress_store` keyed by session id. -/
def Store : Type := String → Option PRec

/-- Embedding of `set_progress`. -/
def set_progress (s : Store) (sid : String) (r : PRec) : Store :=
  fun k => if k = sid then some r else s k

/-- The default record returned by `get_progress` for an absent session. -/
def default_progress : PRec :=
  { message := some "Waiting...", percent := some 0 }

/-- Embedding of `get_progress`.  The `if value:` test of the source inspects
the stored JSON string, which is non-empty for every stored record (even the
empty dict serialises to a two-character string), so it only distinguishes a
present entry from an absent one. -/
def get_progress (s : Store) (sid : String) : PRec :=
  match s sid with
  | some v => v
  | none => default_progress

/-- Embedding of `delete_progress`. -/
def delete_progress (s : Store) (sid : String) : Store :=
  fun k => if k = sid then none else s k

/-! ## Python integer conversion

The source computes percentages as `int((completed / total) * factor)` on
floats.  Python `int(...)` truncates toward zero; on the exact rationals used
here this is truncation of the rational, which agrees with the float
computation at every concrete input appearing in this development. -/

/-- Truncation toward zero of a rational, the semantics of Python `int()`. -/
def pyint (q : ℚ) : Int := q.num.tdiv q.den

/-! ## dispatch_download.py: the Separation Fallback Engine -/

/-- Result of one `subprocess.run` invocation of demucs. -/
structure ProcResult where
  returncode : Int
deriving DecidableEq

/-- Environment for the external separation tool: for each model name, the
result of `run_demucs_with_model` on the fixed audio path and device, where
`none` models the invocation failing to launch (the except branch). -/
structure DemucsEnv where
  run : String → Option ProcResult

/-- Embedding of `model_output_dir(model_name, uid)`. -/
def model_output_dir (model uid : String) : String :=
  joinPath (joinPath "separated" model) uid

/-- Outcome of `run_demucs_with_fallbacks`, extended with the trace of the
models for which the loop body ran (in order): each traced model had a
progress update emitted and the separation tool invoked for it. -/
structure FallbackOutcome where
  model_used : Option String
  stem_base_path : Option String
  validation : ValidationResult
  attempted : List String
deriving DecidableEq

/-- Embedding of `run_demucs_with_fallbacks`, generalised over the candidate
list it iterates (the source iterates the constant FALLBACK_MODELS). -/
def run_demucs_with_fallbacks (env : DemucsEnv) (fs : FS) (uid : String) :
    List String → FallbackOutcome
  | [] =>
    { model_used := none, stem_base_path := none,
      validation := { ok := false, problems := [("_", "all_models_failed")] },
      attempted := [] }
  | model :: rest =>
    let next := run_demucs_with_fallbacks env fs uid rest
    let cont : FallbackOutcome := { next with attempted := model :: next.attempted }
    match env.run model with
    | none => cont
    | some proc =>
      if proc.returncode ≠ 0 ∨ fs.dirExists (model_output_dir model uid) = false then cont
      else
        let validation := validate_stems fs (model_output_dir model uid)
        if validation.ok then
          { model_used := some model,
            stem_base_path := some (model_output_dir model uid),
            validation := validation, attempted := [model] }
        else cont

/-- Decision made by the loop body for one candidate model: whether this model
would be returned as the winner (launch succeeded, exit status zero, output
directory present, validation passed). -/
def modelPasses (env : DemucsEnv) (fs : FS) (uid model : String) : Bool :=
  match env.run model with
  | none => false
  | some proc =>
    if proc.returncode ≠ 0 ∨ fs.dirExists (model_output_dir model uid) = false then false
    else (validate_stems fs (model_output_dir model uid)).ok

/-! ## dispatch_download.py: the caching check of the Dispatcher -/

/-- Test applied by the caching loop of `dispatch_stem_processing` to one
candidate model: its output directory exists on disk and passes
validation. -/
def cachedOk (fs : FS) (uid model : String) : Bool :=
  fs.dirExists (model_output_dir model uid) &&
    (validate_stems fs (model_output_dir model uid)).ok

/-- Embedding of the caching loop of `dispatch_stem_processing` (the block
computing `cached_dir` and `cached_model`): the first candidate model whose
existing output directory passes validation, with that directory. -/
def find_cached_stems (fs : FS) (uid : String) : List String → Option (String × String)
  | [] => none
  | model :: rest =>
    if cachedOk fs uid model then some (model, model_output_dir model uid)
    else find_cached_stems fs uid rest

/-- Outcome of the stems phase of the Dispatcher: the chosen stem base path
(if any), whether the Separation Fallback Engine was invoked at all, and the
trace of separation-tool invocations. -/
structure StemsPhase where
  stem_base_path : Option String
  separator_invoked : Bool
  attempted : List String
deriving DecidableEq

/-- Embedding of the cache-or-separate step of `dispatch_stem_processing`
(lines computing `cached_dir` and the `if cached_dir ... else` branch). -/
def obtain_stems (env : DemucsEnv) (fs : FS) (uid : String) (models : List String) :
    StemsPhase :=
  match find_cached_stems fs uid models with
  | some (_, dir) =>
    { stem_base_path := some dir, separator_invoked := false, attempted := [] }
  | none =>
    let out := run_demucs_with_fallbacks env fs uid models
    { stem_base_path := out.stem_base_path, separator_invoked := true,
      attempted := out.attempted }

/-! ## utils/errors.py and content_base.py -/

/-- Entry of the append-only failure log written by `log_failure`, restricted
to the fields the claims mention: the track id, the reason, and the
`channel_key` field of the details mapping when present. -/
structure LogEntry where
  track_id : String
  reason : String
  channel_key : Option String := none
deriving DecidableEq

/-- Embedding of CHANNEL_MODULE_MAP of dispatch_download.py: channel key to
(module name, class name). -/
def CHANNEL_MODULE_MAP : List (String × String × String) :=
  [("son_got_acappellas", ("content_download_vocal", "Content_download_vocal")),
   ("son_got_drums", ("content_download_drum", "Content_download_drum")),
   ("main_channel", ("content_download_main", "Content_download_main")),
   ("sgs_2", ("content_download_backup", "Content_download_backup")),
   ("sample_split", ("content_download_sample_split", "Content_download_split"))]

/-- Test `channel_key in CHANNEL_MODULE_MAP` of the source. -/
def channel_mapped (key : String) : Bool :=
  (CHANNEL_MODULE_MAP.lookup key).isSome

/-- Embedding of `ContentBase.mark_step_complete` (content_base.py).  The
session record is passed and returned explicitly; `none` models the
ZeroDivisionError raised by `(completed / total)` when the stored total is
zero.  The write replaces the whole record with message, percent and the
enriched meta (extra_meta never overrides completed or total at any call
site of the repository). -/
def mark_step_complete (r : PRec) (msg : String) : Option PRec :=
  if r.isTruthy = false then some r
  else
    let meta := r.meta.getD {}
    let completed := meta.completed.getD 0 + 1
    let total := meta.total.getD 1
    if total = 0 then none
    else
      some { message := some msg,
             percent := some ((pyint (((completed : ℚ) / (total : ℚ)) * 100) : ℚ)),
             meta := some { meta with completed := some completed, total := some total } }

/-! ## dispatch_download.py: channel fanout of the Dispatcher -/

/-- Observable behavior of one `processor.download(track_id)` call: the
session record after the writes the processor performed, whether the call
raised, and the list of records it wrote to the Progress Store along the
way. -/
structure ChannelRun where
  record : PRec
  raised : Bool
  writes : List PRec

/-- Environment giving, for each channel key, the behavior of the processor
constructed for it (module import, class lookup and construction are assumed
to succeed for mapped keys, as they do for the five modules shipped in the
repository). -/
structure ChannelEnv where
  run : String → PRec → ChannelRun

/-- Write performed before invoking a channel processor (the block guarded by
`if progress:` inside the try): set the message and record the channel in the
meta mapping.  When the current record is the empty dict the guard fails and
the record is left untouched. -/
def fanout_prewrite (key : String) (r : PRec) : PRec :=
  if r.isTruthy then
    { r with message := some ("Uploading " ++ key),
             meta := some { r.meta.getD {} with channel := some key } }
  else r

/-- Step-done write of the fanout loop: increment the completed count and set
the percent to `46 + int((completed / total) * 54)`. `none` models the
ZeroDivisionError raised when the stored total is zero (an exception inside
the try block, handled by the same except clause as a processor failure). -/
def fanout_stepdone (key : String) (r : PRec) : Option PRec :=
  let meta := r.meta.getD {}
  let completed := meta.completed.getD 0 + 1
  let total := meta.total.getD 1
  if total = 0 then none
  else
    some { r with
      meta := some { meta with completed := some completed, channel := some key },
      percent := some ((46 + pyint (((completed : ℚ) / (total : ℚ)) * 54) : ℚ)),
      message := some ("Done " ++ key) }

/-- Write performed by the except branch of the fanout loop: record the error
message and continue; the percent is left as it was. -/
def fanout_failwrite (key : String) (r : PRec) : PRec :=
  { r with message := some ("Error processing " ++ key ++ ", continuing") }

/-- State threaded through the fanout loop: the session record, the failure
log, the channels whose processor was invoked (in order), and the trace of
every record written to the Progress Store. -/
structure FanoutState where
  record : PRec
  log : List LogEntry
  invoked : List String
  writes : List PRec

/-- Body of the `for channel_key in selected_channels` loop of
`dispatch_stem_processing`: unknown keys are logged and skipped; otherwise
the pre-write happens, the processor runs, and either the step-done write or
the except branch (log `channel_processing` and write the error message)
follows. -/
def fanout_step (env : ChannelEnv) (track_id : String) (st : FanoutState)
    (key : String) : FanoutState :=
  if channel_mapped key = false then
    { st with log := st.log ++ [{ track_id := track_id, reason := "unknown_channel",
                                  channel_key := some key }] }
  else
    let rec1 := fanout_prewrite key st.record
    let preWrites := if st.record.isTruthy then [rec1] else []
    let res := env.run key rec1
    let invoked := st.invoked ++ [key]
    match fanout_stepdone key res.record with
    | some rec3 =>
      if res.raised then
        { record := fanout_failwrite key res.record,
          log := st.log ++ [{ track_id := track_id, reason := "channel_processing",
                              channel_key := some key }],
          invoked := invoked,
          writes := st.writes ++ preWrites ++ res.writes ++ [fanout_failwrite key res.record] }
      else
        { record := rec3, log := st.log, invoked := invoked,
          writes := st.writes ++ preWrites ++ res.writes ++ [rec3] }
    | none =>
      { record := fanout_failwrite key res.record,
        log := st.log ++ [{ track_id := track_id, reason := "channel_processing",
                            channel_key := some key }],
        invoked := invoked,
        writes := st.writes ++ preWrites ++ res.writes ++ [fanout_failwrite key res.record] }

/-- Progress-meta setup preceding the fanout (the `Progress metas` block):
when the current record is truthy, replace its meta wholesale by
`{completed: 0, total: n}` and set percent 46. -/
def fanout_init (n : ℕ) (r : PRec) : PRec :=
  if r.isTruthy then
    { r with message := some "Processing channels",
             meta := some { completed := some 0, total := some (n : Int) },
             percent := some 46 }
  else r

/-- Final write of `dispatch_stem_processing`: message and percent 100 on
whatever record is current. -/
def dispatch_finalize (r : PRec) : PRec :=
  { r with message := some "All processing complete", percent := some 100 }

/-- Channel phase of `dispatch_stem_processing` starting from the record
current after the stems phase: meta setup, the fanout loop over the selected
channels, and the finalize write. -/
def dispatch_channel_phase (env : ChannelEnv) (track_id : String)
    (channels : List String) (rec0 : PRec) : FanoutState :=
  let rec1 := fanout_init channels.length rec0
  let st0 : FanoutState :=
    { record := rec1, log := [], invoked := [],
      writes := if rec0.isTruthy then [rec1] else [] }
  let st := channels.foldl (fanout_step env track_id) st0
  { st with record := dispatch_finalize st.record,
            writes := st.writes ++ [dispatch_finalize st.record] }

/-! ## dispatch_download.py: the Batch Scheduler (process_all_tracks)

Each submitted track is run by `run_with_semaphore`, which acquires one
permit of a counting semaphore created with `max_concurrent` permits before
calling `dispatch_stem_processing` and releases it afterwards.  The
scheduler is modelled as a transition system over the number of workers in
each phase; `acquire` requires a positive permit count, which is the defining
behavior of `threading.Semaphore`. -/

/-- State of the batch: how many submitted tracks are still waiting for a
permit, how many are currently executing their dispatch, how many finished,
and the current permit count of the semaphore. -/
structure BatchState where
  pending : ℕ
  running : ℕ
  finished : ℕ
  permits : ℕ
deriving DecidableEq

/-- Initial state of `process_all_tracks` with n submitted tracks and a
semaphore holding maxc permits. -/
def initBatch (maxc n : ℕ) : BatchState :=
  { pending := n, running := 0, finished := 0, permits := maxc }

/-- Transitions of the batch: a waiting worker acquires a permit and starts
its dispatch only when a permit is available; a running worker finishes its
dispatch and releases its permit. -/
inductive BatchStep : BatchState → BatchState → Prop
  | acquire (s : BatchState) : 0 < s.pending → 0 < s.permits →
      BatchStep s { pending := s.pending - 1, running := s.running + 1,
                    finished := s.finished, permits := s.permits - 1 }
  | release (s : BatchState) : 0 < s.running →
      BatchStep s { pending := s.pending, running := s.running - 1,
                    finished := s.finished + 1, permits := s.permits + 1 }

/-- States reachable by `process_all_tracks` with the given limit and track
count. -/
inductive BatchReachable (maxc n : ℕ) : BatchState → Prop
  | start : BatchReachable maxc n (initBatch maxc n)
  | step {s t : BatchState} : BatchReachable maxc n s → BatchStep s t →
      BatchReachable maxc n t

/-! ## Concrete instances used by the witnesses and counterexamples -/

/-- Store holding nothing. -/
def emptyStore : Store := fun _ => none

/-- Store holding the empty dict for session s1. -/
def emptyRecStore : Store := fun sid => if sid = "s1" then some {} else none

/-- Stem file passing every threshold of the validator. -/
def goodFile : FileInfo :=
  { size := 200000, decode := some { duration_seconds := 30, rms := 100 } }

/-- Stem file that is large enough but whose decoding raises. -/
def corruptFile : FileInfo := { size := 200000, decode := none }

/-- Filesystem example: the output directories of models A and B for uid u1
exist; the directory of B holds four good stems while the directory of A is
empty; nothing else exists. -/
def exampleFS : FS :=
  { dirExists := fun p => p == "separated/A/u1" || p == "separated/B/u1",
    file := fun p =>
      if p = "separated/B/u1/vocals.mp3" ∨ p = "separated/B/u1/drums.mp3" ∨
         p = "separated/B/u1/bass.mp3" ∨ p = "separated/B/u1/other.mp3" then some goodFile
      else none }

/-- Filesystem example: directory d holds a single oversized stem whose
decoding fails. -/
def corruptFS : FS :=
  { dirExists := fun _ => false,
    file := fun p => if p = "d/vocals.mp3" then some corruptFile else none }

/-- Separation-tool environment whose every invocation launches and exits
cleanly. -/
def exampleEnv : DemucsEnv := { run := fun _ => some { returncode := 0 } }

/-- Separation-tool environment whose every invocation exits with status 1. -/
def failEnv : DemucsEnv := { run := fun _ => some { returncode := 1 } }

/-- Channel environment whose every processor raises immediately. -/
def raisingEnv : ChannelEnv :=
  { run := fun _ r => { record := r, raised := true, writes := [] } }

/-- Channel environment modelling the happy path of the shipped channel
processors: the download succeeds and ends with `mark_complete_with_meta`,
i.e. one `mark_step_complete` write against the shared session record (as
content_download_vocal.py and content_download_drum.py do). -/
def completingEnv : ChannelEnv :=
  { run := fun _ r =>
      match mark_step_complete r "Processing complete" with
      | some r2 => { record := r2, raised := false, writes := [r2] }
      | none => { record := r, raised := true, writes := [] } }

/-- Session record current after the separation phase of the Dispatcher
(the write at percent 45). -/
def afterSeparationRec : PRec :=
  { message := some "Separation complete", percent := some 45 }

/-- Channel phase of a dispatch of two successfully processed channels,
starting from the record left by the separation phase. -/
def twoChannelPhase : FanoutState :=
  dispatch_channel_phase completingEnv "t1"
    ["son_got_acappellas", "son_got_drums"] afterSeparationRec

/-- Record current after the meta setup of the two-channel dispatch. -/
def c3r0 : PRec :=
  { message := some "Processing channels", percent := some 46,
    meta := some { completed := some 0, total := some 2, channel := none } }

/-- Record written before the first channel processor runs. -/
def c3r1 : PRec :=
  { message := some ("Uploading " ++ "son_got_acappellas"), percent := some 46,
    meta := some { completed := some 0, total := some 2,
                   channel := some "son_got_acappellas" } }

/-- Record written by mark_step_complete of the first channel processor. -/
def c3r2 : PRec :=
  { message := some "Processing complete", percent := some 50,
    meta := some { completed := some 1, total := some 2,
                   channel := some "son_got_acappellas" } }

/-- Record written by the step-done write of the Dispatcher after the first
channel. -/
def c3r3 : PRec :=
  { message := some ("Done " ++ "son_got_acappellas"), percent := some 100,
    meta := some { completed := some 2, total := some 2,
                   channel := some "son_got_acappellas" } }

/-- Record written before the second channel processor runs. -/
def c3r4 : PRec :=
  { message := some ("Uploading " ++ "son_got_drums"), percent := some 100,
    meta := some { completed := some 2, total := some 2,
                   channel := some "son_got_drums" } }

/-- Record written by mark_step_complete of the second channel processor: the
completed count is now 3 of 2, so the percent written is 150. -/
def c3r5 : PRec :=
  { message := some "Processing complete", percent := some 150,
    meta := some { completed := some 3, total := some 2,
                   channel := some "son_got_drums" } }

/-- Record written by the step-done write of the Dispatcher after the second
channel: percent 154. -/
def c3r6 : PRec :=
  { message := some ("Done " ++ "son_got_drums"), percent := some 154,
    meta := some { completed := some 4, total := some 2,
                   channel := some "son_got_drums" } }

/-- Final record of the two-channel dispatch. -/
def c3r7 : PRec :=
  { message := some "All processing complete", percent := some 100,
    meta := some { completed := some 4, total := some 2,
                   channel := some "son_got_drums" } }

/-! ## Theorems about the Stem Validator -/

/-- C6: for every directory, validate_stems returns ok true exactly when the
problems mapping is empty; every expected stem filename absent from the
directory appears in problems with reason missing (and ok is false); and a
directory in which all four files are present, at least the size threshold,
and at least the duration and RMS thresholds yields ok true with an empty
problems mapping. -/
theorem validate_stems_spec (fs : FS) (base : String) :
    ((validate_stems fs base).ok = true ↔ (validate_stems fs base).problems = [])
    ∧ (∀ name ∈ EXPECTED, fs.file (joinPath base name) = none →
        (name, "missing") ∈ (validate_stems fs base).problems ∧
        (validate_stems fs base).ok = false)
    ∧ ((∀ name ∈ EXPECTED, ∃ fi, fs.file (joinPath base name) = some fi ∧
          MIN_BYTES ≤ fi.size ∧ ∃ seg, fi.decode = some seg ∧
          MIN_DURATION_S ≤ seg.duration_seconds ∧ MIN_RMS ≤ seg.rms) →
        (validate_stems fs base).ok = true ∧ (validate_stems fs base).problems = []) := by
  refine ⟨?_, ?_, ?_⟩
  · simp [validate_stems, List.isEmpty_iff]
  · intro name hmem hfile
    have hmem2 : (name, "missing") ∈ (validate_stems fs base).problems := by
      simp only [validate_stems, List.mem_filterMap]
      exact ⟨name, hmem, by simp [stem_problem, hfile]⟩
    refine ⟨hmem2, ?_⟩
    cases hok : (validate_stems fs base).ok with
    | false => rfl
    | true =>
      have : (validate_stems fs base).problems = [] := by
        simpa [validate_stems, List.isEmpty_iff] using hok
      rw [this] at hmem2
      cases hmem2
  · intro hgood
    have hnil : (validate_stems fs base).problems = [] := by
      simp only [validate_stems, List.filterMap_eq_nil_iff]
      intro name hmem
      obtain ⟨fi, hfi, hsize, seg, hseg, hd, hr⟩ := hgood name hmem
      simp [stem_problem, hfi, Nat.not_lt.mpr hsize, rms_ok, hseg, hd, hr]
    exact ⟨by simpa [validate_stems, List.isEmpty_iff] using hnil, hnil⟩

/-- Witness for C6: a concrete directory with four good stems validates with
ok true, and a concrete directory missing vocals.mp3 reports it missing. -/
theorem validate_stems_spec_witness :
    (validate_stems exampleFS "separated/B/u1").ok = true ∧
    (validate_stems exampleFS "separated/B/u1").problems = [] ∧
    ("vocals.mp3", "missing") ∈ (validate_stems exampleFS "separated/A/u1").problems := by
  have hgood : ∀ name ∈ EXPECTED, ∃ fi,
      exampleFS.file (joinPath "separated/B/u1" name) = some fi ∧
      MIN_BYTES ≤ fi.size ∧ ∃ seg, fi.decode = some seg ∧
      MIN_DURATION_S ≤ seg.duration_seconds ∧ MIN_RMS ≤ seg.rms := by
    intro name hmem
    fin_cases hmem <;>
      exact ⟨goodFile, by decide, by decide,
        ⟨{ duration_seconds := 30, rms := 100 }, by decide, by decide, by decide⟩⟩
  obtain ⟨hok, hprob⟩ := (validate_stems_spec exampleFS "separated/B/u1").2.2 hgood
  have hmiss := ((validate_stems_spec exampleFS "separated/A/u1").2.1
    "vocals.mp3" (by decide) (by decide)).1
  exact ⟨hok, hprob, hmiss⟩

/-- C7: validate_stems is a total function of the directory contents (it
never propagates an exception); in particular a stem file that is present and
large enough but whose decoding raises is classified in problems with reason
silent_or_short, and the directory fails validation, instead of the exception
reaching the caller. -/
theorem validate_stems_decode_failure (fs : FS) (base name : String) (fi : FileInfo)
    (hmem : name ∈ EXPECTED) (hfile : fs.file (joinPath base name) = some fi)
    (hsize : MIN_BYTES ≤ fi.size) (hdec : fi.decode = none) :
    (name, "silent_or_short") ∈ (validate_stems fs base).problems ∧
    (validate_stems fs base).ok = false := by
  have hmem2 : (name, "silent_or_short") ∈ (validate_stems fs base).problems := by
    simp only [validate_stems, List.mem_filterMap]
    exact ⟨name, hmem, by simp [stem_problem, hfile, Nat.not_lt.mpr hsize, rms_ok, hdec]⟩
  refine ⟨hmem2, ?_⟩
  cases hok : (validate_stems fs base).ok with
  | false => rfl
  | true =>
    have : (validate_stems fs base).problems = [] := by
      simpa [validate_stems, List.isEmpty_iff] using hok
    rw [this] at hmem2
    cases hmem2

/-- Witness for C7: a concrete corrupt stem is classified silent_or_short. -/
theorem validate_stems_decode_failure_witness :
    ("vocals.mp3", "silent_or_short") ∈ (validate_stems corruptFS "d").problems ∧
    (validate_stems corruptFS "d").ok = false :=
  validate_stems_decode_failure corruptFS "d" "vocals.mp3" corruptFile
    (by decide) (by decide) (by decide) rfl

/-! ## Theorems about the Progress Store -/

/-- C8: get_progress on a session id never written returns the default record
with message Waiting... and percent 0, and after delete_progress a subsequent
get_progress returns that same default again. -/
theorem progress_store_defaults (s : Store) (sid : String) :
    (s sid = none →
      get_progress s sid = { message := some "Waiting...", percent := some 0 }) ∧
    get_progress (delete_progress s sid) sid
      = { message := some "Waiting...", percent := some 0 } := by
  constructor
  · intro h
    simp [get_progress, h, default_progress]
  · simp [get_progress, delete_progress, default_progress]

/-- Witness for C8 at a concrete store and session id. -/
theorem progress_store_defaults_witness :
    get_progress emptyStore "a" = { message := some "Waiting...", percent := some 0 } ∧
    get_progress (delete_progress emptyStore "a") "a"
      = { message := some "Waiting...", percent := some 0 } :=
  ⟨(progress_store_defaults emptyStore "a").1 rfl,
   (progress_store_defaults emptyStore "a").2⟩

/-- C10 counterexample: it is not true that get_progress returns a truthy
record containing the message and percent keys for every store state; a store
holding the empty dict for a session makes get_progress return that empty,
falsy record. -/
theorem get_progress_truthy_counterexample :
    ¬ ∀ (s : Store) (sid : String),
        (get_progress s sid).isTruthy = true ∧
        (get_progress s sid).message.isSome = true ∧
        (get_progress s sid).percent.isSome = true := by
  intro h
  have h1 := (h emptyRecStore "s1").1
  simp [get_progress, emptyRecStore, PRec.isTruthy] at h1

/-- C10 amended: get_progress is total, and for every store in which every
stored record contains the message and percent keys (which every set_progress
call site of the repository ensures), it returns a non-empty record
containing both keys, so the falsy-guard branches of its callers cannot take
their absent-record path. -/
theorem get_progress_keys_of_writer_invariant (s : Store) (sid : String)
    (hinv : ∀ k r, s k = some r → r.message.isSome = true ∧ r.percent.isSome = true) :
    (get_progress s sid).message.isSome = true ∧
    (get_progress s sid).percent.isSome = true ∧
    (get_progress s sid).isTruthy = true := by
  rcases h : s sid with _ | r
  · simp [get_progress, h, default_progress, PRec.isTruthy]
  · obtain ⟨h1, h2⟩ := hinv sid r h
    simp [get_progress, h, PRec.isTruthy, h1, h2]

/-- Witness for the amended C10 at a concrete store. -/
theorem get_progress_keys_of_writer_invariant_witness :
    (get_progress emptyStore "a").message.isSome = true ∧
    (get_progress emptyStore "a").percent.isSome = true ∧
    (get_progress emptyStore "a").isTruthy = true :=
  get_progress_keys_of_writer_invariant emptyStore "a"
    (fun k r h => by simp [emptyStore] at h)

/-! ## Theorems about the Separation Fallback Engine -/

/-- Helper: a candidate that does not pass is skipped, contributing only its
entry in the attempt trace. -/
theorem fallback_skip (env : DemucsEnv) (fs : FS) (uid m : String) (rest : List String)
    (h : modelPasses env fs uid m = false) :
    run_demucs_with_fallbacks env fs uid (m :: rest) =
      { run_demucs_with_fallbacks env fs uid rest with
        attempted := m :: (run_demucs_with_fallbacks env fs uid rest).attempted } := by
  rcases henv : env.run m with _ | proc
  · simp [run_demucs_with_fallbacks, henv]
  · by_cases hc : proc.returncode ≠ 0 ∨ fs.dirExists (model_output_dir m uid) = false
    · simp [run_demucs_with_fallbacks, henv, hc]
    · have hok : (validate_stems fs (model_output_dir m uid)).ok = false := by
        simpa [modelPasses, henv, hc] using h
      simp [run_demucs_with_fallbacks, henv, hc, hok]

/-- Helper: a candidate that passes wins immediately. -/
theorem fallback_win (env : DemucsEnv) (fs : FS) (uid m : String) (rest : List String)
    (h : modelPasses env fs uid m = true) :
    run_demucs_with_fallbacks env fs uid (m :: rest) =
      { model_used := some m, stem_base_path := some (model_output_dir m uid),
        validation := validate_stems fs (model_output_dir m uid), attempted := [m] } := by
  rcases henv : env.run m with _ | proc
  · simp [modelPasses, henv] at h
  · by_cases hc : proc.returncode ≠ 0 ∨ fs.dirExists (model_output_dir m uid) = false
    · simp [modelPasses, henv, hc] at h
    · have hok : (validate_stems fs (model_output_dir m uid)).ok = true := by
        simpa [modelPasses, henv, hc] using h
      simp [run_demucs_with_fallbacks, henv, hc, hok]

/-- C1: the Separation Fallback Engine attempts candidates strictly in list
order and returns with the first model whose output passes validation: for a
candidate list decomposed as pre ++ B :: post where no model of pre passes
and B passes, it returns B and the directory of B, reports the validation of
the directory of B, and its attempt trace is exactly pre followed by B, so
every model of pre was attempted before B and no model of post was ever
attempted. -/
theorem fallback_first_passing_model_wins (env : DemucsEnv) (fs : FS) (uid B : String)
    (pre post : List String)
    (hpre : ∀ m ∈ pre, modelPasses env fs uid m = false)
    (hB : modelPasses env fs uid B = true) :
    (run_demucs_with_fallbacks env fs uid (pre ++ B :: post)).model_used = some B ∧
    (run_demucs_with_fallbacks env fs uid (pre ++ B :: post)).stem_base_path
      = some (model_output_dir B uid) ∧
    (run_demucs_with_fallbacks env fs uid (pre ++ B :: post)).validation
      = validate_stems fs (model_output_dir B uid) ∧
    (run_demucs_with_fallbacks env fs uid (pre ++ B :: post)).attempted = pre ++ [B] := by
  induction pre with
  | nil => simp [fallback_win env fs uid B post hB]
  | cons m ms ih =>
    have hm : modelPasses env fs uid m = false := hpre m (by simp)
    have hrec := ih (fun x hx => hpre x (by simp [hx]))
    rw [List.cons_append, fallback_skip env fs uid m _ hm]
    simp [hrec.1, hrec.2.1, hrec.2.2.1, hrec.2.2.2]

/-- Witness for C1: with candidates A, B, C where the output of A fails
validation and the output of B passes, the engine returns B and attempted
exactly A then B. -/
theorem fallback_first_passing_model_wins_witness :
    (run_demucs_with_fallbacks exampleEnv exampleFS "u1" ["A", "B", "C"]).model_used
      = some "B" ∧
    (run_demucs_with_fallbacks exampleEnv exampleFS "u1" ["A", "B", "C"]).attempted
      = ["A", "B"] := by
  have h := fallback_first_passing_model_wins exampleEnv exampleFS "u1" "B" ["A"] ["C"]
    (by decide) (by decide)
  exact ⟨h.1, h.2.2.2⟩

/-- C5: when every candidate model fails to launch, exits with failure,
produces no output directory, or produces output failing validation, the
engine returns none for the model and the path together with a failure result
whose problems mapping is non-empty. -/
theorem fallback_all_models_fail (env : DemucsEnv) (fs : FS) (uid : String)
    (models : List String) (h : ∀ m ∈ models, modelPasses env fs uid m = false) :
    (run_demucs_with_fallbacks env fs uid models).model_used = none ∧
    (run_demucs_with_fallbacks env fs uid models).stem_base_path = none ∧
    (run_demucs_with_fallbacks env fs uid models).validation.ok = false ∧
    (run_demucs_with_fallbacks env fs uid models).validation.problems ≠ [] := by
  induction models with
  | nil => simp [run_demucs_with_fallbacks]
  | cons m rest ih =>
    have hrec := ih (fun x hx => h x (by simp [hx]))
    rw [fallback_skip env fs uid m rest (h m (by simp))]
    simpa using hrec

/-- Witness for C5: with every invocation exiting with status 1, the engine
returns the aggregated failure. -/
theorem fallback_all_models_fail_witness :
    (run_demucs_with_fallbacks failEnv exampleFS "u1" ["A", "B"]).model_used = none ∧
    (run_demucs_with_fallbacks failEnv exampleFS "u1" ["A", "B"]).validation.ok = false ∧
    (run_demucs_with_fallbacks failEnv exampleFS "u1" ["A", "B"]).validation.problems ≠ [] := by
  have h := fallback_all_models_fail failEnv exampleFS "u1" ["A", "B"] (by decide)
  exact ⟨h.1, h.2.2.1, h.2.2.2⟩

/-! ## Theorems about the caching check of the Dispatcher -/

/-- Helper: any hit of the caching loop is a validated, existing directory of
the corresponding model. -/
theorem find_cached_stems_sound (fs : FS) (uid : String) :
    ∀ (models : List String) (x d : String),
      find_cached_stems fs uid models = some (x, d) →
      d = model_output_dir x uid ∧ fs.dirExists d = true ∧
      (validate_stems fs d).ok = true := by
  intro models
  induction models with
  | nil => intro x d h; simp [find_cached_stems] at h
  | cons m rest ih =>
    intro x d h
    by_cases hc : cachedOk fs uid m = true
    · rw [find_cached_stems, if_pos hc] at h
      obtain ⟨rfl, rfl⟩ : m = x ∧ model_output_dir m uid = d := by
        simpa using h
      have := hc
      simp only [cachedOk, Bool.and_eq_true] at this
      exact ⟨rfl, this.1, this.2⟩
    · rw [find_cached_stems, if_neg hc] at h
      exact ih x d h

/-- C4: the Dispatcher checks the existing output directory of every candidate
model in fallback order; given a decomposition pre ++ m :: post where no model
of pre has an existing validated directory and the directory of m exists and
validates, the stems phase uses the directory of m as the stem base path and
never invokes the separation tool; moreover every cache hit is an existing
directory that passed validation, so an existing but invalid directory is
never used as cache. -/
theorem dispatcher_cache_first_valid (env : DemucsEnv) (fs : FS) (uid m : String)
    (pre post : List String)
    (hpre : ∀ x ∈ pre, cachedOk fs uid x = false)
    (hm : cachedOk fs uid m = true) :
    (obtain_stems env fs uid (pre ++ m :: post)).stem_base_path
      = some (model_output_dir m uid) ∧
    (obtain_stems env fs uid (pre ++ m :: post)).separator_invoked = false ∧
    (obtain_stems env fs uid (pre ++ m :: post)).attempted = [] ∧
    (∀ (models : List String) (x d : String),
      find_cached_stems fs uid models = some (x, d) →
      d = model_output_dir x uid ∧ fs.dirExists d = true ∧
      (validate_stems fs d).ok = true) := by
  have hfind : find_cached_stems fs uid (pre ++ m :: post)
      = some (m, model_output_dir m uid) := by
    induction pre with
    | nil => simp [find_cached_stems, hm]
    | cons x xs ih =>
      have hx : cachedOk fs uid x = false := hpre x (by simp)
      rw [List.cons_append, find_cached_stems, if_neg (by simp [hx])]
      exact ih (fun y hy => hpre y (by simp [hy]))
  refine ⟨?_, ?_, ?_, find_cached_stems_sound fs uid⟩ <;>
    simp [obtain_stems, hfind]

/-- Witness for C4: with the directory of A existing but invalid and the
directory of B validated, the stems phase reuses the directory of B and the
separation tool is not invoked. -/
theorem dispatcher_cache_first_valid_witness :
    (obtain_stems failEnv exampleFS "u1" ["A", "B", "C"]).stem_base_path
      = some "separated/B/u1" ∧
    (obtain_stems failEnv exampleFS "u1" ["A", "B", "C"]).separator_invoked = false := by
  have h := dispatcher_cache_first_valid failEnv exampleFS "u1" "B" ["A"] ["C"]
    (by decide) (by decide)
  exact ⟨h.1, h.2.1⟩

/-! ## Theorems about the channel fanout of the Dispatcher -/

/-- Helper: the invocation trace of one fanout step appends the key exactly
when the key is mapped. -/
theorem fanout_step_invoked (env : ChannelEnv) (tid : String) (st : FanoutState)
    (key : String) :
    (fanout_step env tid st key).invoked =
      if channel_mapped key then st.invoked ++ [key] else st.invoked := by
  cases hmap : channel_mapped key
  · simp [fanout_step, hmap]
  · cases hd : fanout_stepdone key (env.run key (fanout_prewrite key st.record)).record
    · simp [fanout_step, hmap, hd]
    · by_cases hr : (env.run key (fanout_prewrite key st.record)).raised = true <;>
        simp [fanout_step, hmap, hd, hr]

/-- Helper: fanout steps only append to the failure log. -/
theorem fanout_step_log_mono (env : ChannelEnv) (tid : String) (st : FanoutState)
    (key : String) (e : LogEntry) (he : e ∈ st.log) :
    e ∈ (fanout_step env tid st key).log := by
  cases hmap : channel_mapped key
  · simp [fanout_step, hmap, he]
  · cases hd : fanout_stepdone key (env.run key (fanout_prewrite key st.record)).record
    · simp [fanout_step, hmap, hd, he]
    · by_cases hr : (env.run key (fanout_prewrite key st.record)).raised = true <;>
        simp [fanout_step, hmap, hd, hr, he]

/-- Helper: a mapped channel whose processor raises contributes a
channel_processing log entry naming the channel. -/
theorem fanout_step_log_raise (env : ChannelEnv) (tid : String) (st : FanoutState)
    (key : String) (hmap : channel_mapped key = true)
    (hraise : (env.run key (fanout_prewrite key st.record)).raised = true) :
    ({ track_id := tid, reason := "channel_processing", channel_key := some key } : LogEntry)
      ∈ (fanout_step env tid st key).log := by
  cases hd : fanout_stepdone key (env.run key (fanout_prewrite key st.record)).record
  · simp [fanout_step, hmap, hd]
  · simp [fanout_step, hmap, hd, hraise]

/-- Helper: the invocation trace of the fanout loop is the mapped channels in
list order. -/
theorem fanout_loop_invoked (env : ChannelEnv) (tid : String) (channels : List String) :
    ∀ st : FanoutState,
      (channels.foldl (fanout_step env tid) st).invoked
        = st.invoked ++ channels.filter (fun k => channel_mapped k) := by
  induction channels with
  | nil => intro st; simp
  | cons k ks ih =>
    intro st
    rw [List.foldl_cons, ih, fanout_step_invoked]
    by_cases h : channel_mapped k <;> simp [h]

/-- Helper: the fanout loop only appends to the failure log. -/
theorem fanout_loop_log_mono (env : ChannelEnv) (tid : String) (channels : List String) :
    ∀ (st : FanoutState) (e : LogEntry), e ∈ st.log →
      e ∈ (channels.foldl (fanout_step env tid) st).log := by
  induction channels with
  | nil => intro st e he; simpa using he
  | cons k ks ih =>
    intro st e he
    exact ih _ e (fanout_step_log_mono env tid st k e he)

/-- Helper: if some member channel of the list is mapped and its processor
always raises, the loop logs a channel_processing entry for it. -/
theorem fanout_loop_log_raise (env : ChannelEnv) (tid X : String)
    (hmap : channel_mapped X = true)
    (hraise : ∀ r, (env.run X r).raised = true) :
    ∀ (channels : List String) (st : FanoutState), X ∈ channels →
      ({ track_id := tid, reason := "channel_processing", channel_key := some X } : LogEntry)
        ∈ (channels.foldl (fanout_step env tid) st).log := by
  intro channels
  induction channels with
  | nil => intro st h; cases h
  | cons k ks ih =>
    intro st hmem
    rcases List.mem_cons.mp hmem with rfl | hX
    · exact fanout_loop_log_mono env tid ks _ _
        (fanout_step_log_raise env tid st X hmap (hraise _))
    · exact ih _ hX

/-- C2: in a dispatch over any channel list containing a mapped channel X
whose processor raises, the Dispatcher logs a failure entry with reason
channel_processing whose details name channel X, still invokes exactly the
mapped channels of the list in order (so every channel after X with a
processor is still invoked), and the final progress write of the session sets
percent to 100 regardless of the failure. -/
theorem channel_failure_isolated (env : ChannelEnv) (track_id : String) (rec0 : PRec)
    (channels : List String) (X : String)
    (hX : X ∈ channels) (hmap : channel_mapped X = true)
    (hraise : ∀ r, (env.run X r).raised = true) :
    ({ track_id := track_id, reason := "channel_processing", channel_key := some X } : LogEntry)
      ∈ (dispatch_channel_phase env track_id channels rec0).log ∧
    (dispatch_channel_phase env track_id channels rec0).invoked
      = channels.filter (fun k => channel_mapped k) ∧
    (dispatch_channel_phase env track_id channels rec0).record.percent = some 100 := by
  refine ⟨?_, ?_, ?_⟩
  · simpa [dispatch_channel_phase] using
      fanout_loop_log_raise env track_id X hmap hraise channels _ hX
  · simpa [dispatch_channel_phase] using
      fanout_loop_invoked env track_id channels _
  · simp [dispatch_channel_phase, dispatch_finalize]

/-- Witness for C2: two mapped channels where the first processor raises; the
second is still invoked, the failure is logged, and the final percent is
100. -/
theorem channel_failure_isolated_witness :
    ({ track_id := "t1", reason := "channel_processing",
       channel_key := some "son_got_acappellas" } : LogEntry)
      ∈ (dispatch_channel_phase raisingEnv "t1"
          ["son_got_acappellas", "son_got_drums"] default_progress).log ∧
    (dispatch_channel_phase raisingEnv "t1"
        ["son_got_acappellas", "son_got_drums"] default_progress).invoked
      = ["son_got_acappellas", "son_got_drums"] ∧
    (dispatch_channel_phase raisingEnv "t1"
        ["son_got_acappellas", "son_got_drums"] default_progress).record.percent
      = some 100 := by
  have h := channel_failure_isolated raisingEnv "t1" default_progress
    ["son_got_acappellas", "son_got_drums"] "son_got_acappellas"
    (by simp) (by decide) (fun r => rfl)
  refine ⟨h.1, ?_, h.2.2⟩
  rw [h.2.1]
  decide

/-- C3: in the dispatch of a track with two selected channels whose
processors both complete normally and finish with mark_step_complete (as the
shipped vocal and drum processors do), the Dispatcher and the processor both
increment the completed count, so the mark_step_complete call of the second
channel writes a progress record whose percent is 150, outside [0, 100]; the
claim that every written percent lies in [0, 100] therefore fails on the
code. -/
theorem fanout_percent_exceeds_100 :
    (∃ w ∈ twoChannelPhase.writes, w.percent = some 150) ∧ ¬ ((150 : ℚ) ≤ 100) := by
  have hmapA : channel_mapped "son_got_acappellas" = true := by decide
  have hmapD : channel_mapped "son_got_drums" = true := by decide
  have hta : afterSeparationRec.isTruthy = true := by decide
  have ht0 : c3r0.isTruthy = true := by decide
  have ht3 : c3r3.isTruthy = true := by decide
  have h0 : fanout_init 2 afterSeparationRec = c3r0 := by
    simp [fanout_init, afterSeparationRec, PRec.isTruthy, c3r0]
  have h1 : fanout_prewrite "son_got_acappellas" c3r0 = c3r1 := by
    simp [fanout_prewrite, PRec.isTruthy, c3r0, c3r1]
  have h2 : mark_step_complete c3r1 "Processing complete" = some c3r2 := by
    norm_num [mark_step_complete, PRec.isTruthy, c3r1, c3r2, pyint]
  have h3 : fanout_stepdone "son_got_acappellas" c3r2 = some c3r3 := by
    norm_num [fanout_stepdone, c3r2, c3r3, pyint]
  have h4 : fanout_prewrite "son_got_drums" c3r3 = c3r4 := by
    simp [fanout_prewrite, PRec.isTruthy, c3r3, c3r4]
  have h5 : mark_step_complete c3r4 "Processing complete" = some c3r5 := by
    norm_num [mark_step_complete, PRec.isTruthy, c3r4, c3r5, pyint]
  have h6 : fanout_stepdone "son_got_drums" c3r5 = some c3r6 := by
    norm_num [fanout_stepdone, c3r5, c3r6, pyint]
  have h7 : dispatch_finalize c3r6 = c3r7 := by
    simp [dispatch_finalize, c3r6, c3r7]
  have hphase : twoChannelPhase.writes
      = [c3r0, c3r1, c3r2, c3r3, c3r4, c3r5, c3r6, c3r7] := by
    simp [twoChannelPhase, dispatch_channel_phase, fanout_step, completingEnv,
      hmapA, hmapD, hta, ht0, ht3, h0, h1, h2, h3, h4, h5, h6, h7]
  constructor
  · refine ⟨c3r5, ?_, rfl⟩
    rw [hphase]
    simp
  · norm_num

/-! ## Theorems about the Batch Scheduler -/

/-- Helper: each scheduler transition preserves the permit accounting of the
semaphore. -/
theorem batch_step_invariant (maxc : ℕ) {s t : BatchState} (hstep : BatchStep s t)
    (hinv : s.permits + s.running = maxc) : t.permits + t.running = maxc := by
  cases hstep with
  | acquire hp hperm =>
    change s.permits - 1 + (s.running + 1) = maxc
    omega
  | release hrun =>
    change s.permits + 1 + (s.running - 1) = maxc
    omega

/-- C9: in every reachable state of the Batch Scheduler, the number of track
dispatches executing simultaneously never exceeds the concurrency limit:
each waiting dispatch can start only by acquiring one of the max_concurrent
semaphore permits and holds it until it finishes. -/
theorem batch_concurrency_bounded (maxc n : ℕ) (s : BatchState)
    (h : BatchReachable maxc n s) : s.running ≤ maxc := by
  have key : s.permits + s.running = maxc := by
    induction h with
    | start => simp [initBatch]
    | step hr hs ih => exact batch_step_invariant maxc hs ih
  omega

/-- Witness for C9 at the initial state of a batch of 5 tracks with limit
2. -/
theorem batch_concurrency_bounded_witness : (initBatch 2 5).running ≤ 2 :=
  batch_concurrency_bounded 2 5 (initBatch 2 5) BatchReachable.start

end StemProc
